import Mathlib

/-!
# Notifly — verification of the async notification pipeline

Shallow embedding of the notifly repository (Go) in Lean 4.

The embedding covers the parts of the code that the verified claims are
about:

* the data model (`internal/domain/notification/log_model.go`,
  `ratelimit.go`): notification records, statuses, requests, responses;
* the error kinds (`internal/common/errors.go`) and the HTTP error
  handler `HandleError` (`internal/common` response helpers);
* the store row-update semantics of `SupabaseStore.UpdateStatus`
  (`internal/infra/store/supabase.go`): empty `providerID` / `errMsg`
  arguments omit the corresponding column, keeping the previous value;
* the intake pipeline `Service.Enqueue`
  (`internal/domain/notification`): validate → idempotency → rate limit
  → create → enqueue, with explicit failure oracles for each
  collaborator and an explicit effect trace;
* the worker pipeline `Worker.ProcessTask`;
* the reaper sweep `Reaper.sweep`;
* the sliding-window recipient rate limiter
  `RedisRecipientLimiter.Allow` (`infra` ratelimit file);
* the asynq retry-delay function from `NewServer` (queue wiring),
  with 64-bit wrap-around arithmetic made explicit.

Fallible collaborators (store, queue, limiter, renderer, provider) are
modelled by explicit oracles: a field of the oracle fixes the outcome of
each call the pipeline makes, and the pipeline is a pure function from
oracle, time and state to new state plus result.  Machine integers are
modelled as `Int` with explicit wrapping (`w64`) where overflow matters.
-/

namespace Notifly

/-- Delivery status of a notification (`NotificationStatus`, log_model.go). -/
inductive NStatus where
  | queued
  | processing
  | sent
  | failed
  | delivered
  | bounced
  | opened
  deriving DecidableEq, Repr

/-- The string value of a status, as stored (`StatusQueued = "queued"`, …). -/
def NStatus.str : NStatus → String
  | .queued => "queued"
  | .processing => "processing"
  | .sent => "sent"
  | .failed => "failed"
  | .delivered => "delivered"
  | .bounced => "bounced"
  | .opened => "opened"

/-- A persisted notification record (`NotificationLog`, log_model.go).
Record ids are opaque strings (UUIDs) in Go; they are modelled as the
store's insertion counter (`Nat`), which preserves exactly the structure
the code relies on: equality and freshness.  Timestamps are `Int`
(nanoseconds UTC).  `template_data` is an opaque association list. -/
structure NotificationLog where
  id : Nat
  idempotencyKey : String
  channel : String
  ntype : String
  recipient : String
  templateData : List (String × String)
  providerID : String
  status : NStatus
  errorMessage : String
  createdAt : Int
  updatedAt : Int
  sentAt : Option Int
  deliveredAt : Option Int
  openedAt : Option Int
  bouncedAt : Option Int
  deriving DecidableEq, Repr

/-- The recognized notification template types (`validTypes`, ratelimit.go). -/
def validTypes : List String :=
  ["confirm_signup", "invite_user", "magic_link", "change_email",
   "reset_password", "reauthentication", "password_changed", "email_changed",
   "phone_changed", "identity_linked", "identity_unlinked"]

/-- `IsValidType` (ratelimit.go): membership in the recognized set. -/
def IsValidType (t : String) : Bool :=
  validTypes.contains t

/-- `SendRequest` (ratelimit.go): the intake request payload. -/
structure SendRequest where
  channel : String
  ntype : String
  toAddr : String
  templateData : List (String × String)
  idempotencyKey : String
  deriving DecidableEq, Repr

/-- `SendResponse` (ratelimit.go): the intake response payload. -/
structure SendResponse where
  id : Nat
  idempotencyKey : String
  channel : String
  status : String
  deriving DecidableEq, Repr

/-! ## Go errors (`internal/common/errors.go`)

The repository creates errors through the four `common` constructors,
through `fmt.Errorf` without `%w` (a leaf error carrying a message), and
through `fmt.Errorf` with a single `%w` (a wrapping error).  The four
`common` error types define no `Unwrap`, so they are always leaves of an
error chain.  `skipRetry` models the external `asynq.SkipRetry` sentinel
(nothing in the repository ever produces it; it is the only error the
queue does not retry). -/

/-- A Go error value as produced by this repository. -/
inductive GoErr where
  | validation (msg : String)
  | notFound (resource id : String)
  | unauthorized (msg : String)
  | provider (providerName msg : String)
  | leaf (msg : String)
  | wrap (msg : String) (inner : GoErr)
  | skipRetry
  deriving DecidableEq, Repr

/-- The `Error()` string of an error (each type's method in errors.go;
`fmt.Errorf` joins with `": "`). -/
def GoErr.msg : GoErr → String
  | .validation m => m
  | .notFound r i => r ++ " with id '" ++ i ++ "' not found"
  | .unauthorized m => if m = "" then "unauthorized" else m
  | .provider p m => p ++ " provider error: " ++ m
  | .leaf m => m
  | .wrap m inner => m ++ ": " ++ inner.msg
  | .skipRetry => "skip retry for the task"

/-- `errors.As(err, &target)` for target type `*NotFoundError`: the first
`NotFoundError` in the unwrap chain, if any. -/
def GoErr.asNotFound : GoErr → Option GoErr
  | .notFound r i => some (.notFound r i)
  | .wrap _ inner => inner.asNotFound
  | _ => none

/-- `errors.As` for `*ValidationError`. -/
def GoErr.asValidation : GoErr → Option GoErr
  | .validation m => some (.validation m)
  | .wrap _ inner => inner.asValidation
  | _ => none

/-- `errors.As` for `*UnauthorizedError`. -/
def GoErr.asUnauthorized : GoErr → Option GoErr
  | .unauthorized m => some (.unauthorized m)
  | .wrap _ inner => inner.asUnauthorized
  | _ => none

/-- `errors.As` for `*ProviderError`: whether the chain contains a
`ProviderError`, regardless of wrapping. -/
def GoErr.hasProvider : GoErr → Bool
  | .provider _ _ => true
  | .wrap _ inner => inner.hasProvider
  | _ => false

/-- `errors.Is(err, asynq.SkipRetry)`: whether the chain carries the
skip-retry sentinel.  Per the asynq queue contract (spec §4.9), a task
whose handler returns an error is retried up to `max_retry` unless the
error wraps `SkipRetry`; only a skip-retry error makes the queue discard
the task immediately. -/
def GoErr.hasSkipRetry : GoErr → Bool
  | .skipRetry => true
  | .wrap _ inner => inner.hasSkipRetry
  | _ => false

/-- `HandleError` (common response helpers): maps a domain error to an
HTTP status code and client-visible message, testing error kinds in
order via `errors.As` over the full chain. -/
def HandleError (e : GoErr) : Nat × String :=
  match e.asNotFound with
  | some nf => (404, nf.msg)
  | none =>
    match e.asValidation with
    | some v => (400, v.msg)
    | none =>
      match e.asUnauthorized with
      | some u => (401, u.msg)
      | none =>
        if e.hasProvider then (502, "notification delivery failed")
        else (500, "internal server error")

/-! ## 64-bit wrap-around and the retry-delay function (queue wiring) -/

/-- Interpretation of an integer as a Go `int64`: two's-complement
wrap-around at 64 bits. -/
def w64 (x : Int) : Int :=
  (x + 2 ^ 63) % 2 ^ 64 - 2 ^ 63

/-- The `RetryDelayFunc` installed by `NewServer` (queue wiring), in
nanoseconds, for the n-th retry (n ≥ 1):
`time.Duration(30*(1<<uint(n-1))) * time.Second` with Go `int`/`int64`
wrap-around semantics.  (`1 << s` is `0` in Go for shift counts ≥ 64,
which coincides with `w64 (2 ^ s)` there.) -/
def retryDelayNanos (n : Nat) : Int :=
  w64 (w64 (30 * w64 (2 ^ (n - 1))) * 1000000000)

/-! ## Store row-update semantics (`SupabaseStore.UpdateStatus`) -/

/-- The effect of `SupabaseStore.UpdateStatus(id, status, providerID,
errMsg)` on the matching row: `status` and `updated_at` are always
written; `provider_id` and `error_message` are included in the update
map only when the corresponding argument is non-empty, so an empty
argument keeps the previous column value; `sent_at` is set exactly when
the new status is `sent`. -/
def updateStatusRow (now : Int) (status : NStatus) (providerID errMsg : String)
    (r : NotificationLog) : NotificationLog :=
  { r with
    status := status
    updatedAt := now
    providerID := if providerID = "" then r.providerID else providerID
    errorMessage := if errMsg = "" then r.errorMessage else errMsg
    sentAt := if status = NStatus.sent then some now else r.sentAt }

/-- `UpdateStatus` applied to a whole table: updates every row whose id
matches (`Eq("id", id)`; ids are unique, so at most one). -/
def updateStatusInStore (now : Int) (status : NStatus) (providerID errMsg : String)
    (id : Nat) (records : List NotificationLog) : List NotificationLog :=
  records.map (fun r => if r.id = id then updateStatusRow now status providerID errMsg r else r)

/-! ## Intake pipeline (`Service.Enqueue`, internal/domain/notification)

The durable store, the queue and the recipient limiter are fallible
collaborators.  `IntakeOracle` fixes the outcome of each fallible call
the one execution of `Enqueue` makes; the store's data itself is part of
the explicit world state, so a successful `GetByIdempotencyKey` returns
what is actually stored, and `Create` fails precisely on a uniqueness
violation of `idempotency_key` (DB constraint) or when the oracle says
the store is down.  The pipeline also emits a trace of the collaborator
calls it performs, so frame claims ("the limiter is not invoked") are
statable. -/

/-- World visible to the intake service: the durable table, the id
counter (the store assigns ids on create), and the queue contents (ids
of enqueued tasks, oldest first). -/
structure IntakeWorld where
  records : List NotificationLog
  nextId : Nat
  queue : List Nat
  deriving DecidableEq, Repr

/-- First record with the given idempotency key
(`GetByIdempotencyKey` returns `rows[0]`). -/
def findByKey (w : IntakeWorld) (key : String) : Option NotificationLog :=
  w.records.find? (fun r => r.idempotencyKey = key)

/-- Number of records carrying the given idempotency key. -/
def countKey (w : IntakeWorld) (key : String) : Nat :=
  w.records.countP (fun r => r.idempotencyKey = key)

/-- Outcomes of the fallible calls a single `Service.Enqueue` execution
may make.  `limiterOutcome` is the `(allowed, err)` pair of
`RecipientRateLimiter.Allow`, as an `Except`. -/
structure IntakeOracle where
  lookupFails : Bool
  limiterOutcome : Except String Bool
  createFails : Bool
  enqueueFails : Bool
  enqueueErrMsg : String
  failedUpdateOk : Bool
  deriving Repr

/-- One collaborator call made by the intake service. -/
inductive Effect where
  | lookup (key : String)
  | limiterCall (recipient : String)
  | createCall
  | enqueueCall (id : Nat)
  | updateCall (id : Nat)
  deriving DecidableEq, Repr

/-- `Service.Enqueue` (internal/domain/notification): validate the type,
check idempotency (fail-open on lookup error), check the per-recipient
rate limit (fail-open on limiter error), create the record with
`status = queued`, enqueue the task; on enqueue failure, best-effort
update the record to `failed` and return a wrapped error.  Returns the
new world, the trace of collaborator calls, and the result. -/
def serviceEnqueue (o : IntakeOracle) (now : Int) (w : IntakeWorld) (req : SendRequest) :
    IntakeWorld × List Effect × Except GoErr SendResponse :=
  if IsValidType req.ntype = false then
    (w, [], Except.error (GoErr.validation ("unsupported notification type: " ++ req.ntype)))
  else
    let idemTrace : List Effect :=
      if req.idempotencyKey = "" then [] else [Effect.lookup req.idempotencyKey]
    let existing : Option NotificationLog :=
      if req.idempotencyKey = "" then none
      else if o.lookupFails then none
      else findByKey w req.idempotencyKey
    match existing with
    | some found =>
      (w, idemTrace,
       Except.ok { id := found.id, idempotencyKey := found.idempotencyKey,
                   channel := found.channel, status := found.status.str })
    | none =>
      let trace1 := idemTrace ++ [Effect.limiterCall req.toAddr]
      match o.limiterOutcome with
      | Except.ok false =>
        (w, trace1,
         Except.error (GoErr.validation ("rate limit exceeded for recipient: " ++ req.toAddr)))
      | _ =>
        let trace2 := trace1 ++ [Effect.createCall]
        if o.createFails ∨ (req.idempotencyKey ≠ "" ∧ (findByKey w req.idempotencyKey).isSome) then
          (w, trace2,
           Except.error (GoErr.wrap "creating notification log" (GoErr.leaf "insert failed")))
        else
          let newRec : NotificationLog :=
            { id := w.nextId, idempotencyKey := req.idempotencyKey, channel := req.channel,
              ntype := req.ntype, recipient := req.toAddr, templateData := req.templateData,
              providerID := "", status := NStatus.queued, errorMessage := "",
              createdAt := now, updatedAt := now,
              sentAt := none, deliveredAt := none, openedAt := none, bouncedAt := none }
          let w1 : IntakeWorld :=
            { records := w.records ++ [newRec], nextId := w.nextId + 1, queue := w.queue }
          let trace3 := trace2 ++ [Effect.enqueueCall newRec.id]
          if o.enqueueFails then
            let failedRecs := updateStatusInStore now NStatus.failed ""
              ("failed to enqueue: " ++ o.enqueueErrMsg) newRec.id w1.records
            let w2 : IntakeWorld :=
              if o.failedUpdateOk then { w1 with records := failedRecs } else w1
            (w2, trace3 ++ [Effect.updateCall newRec.id],
             Except.error (GoErr.wrap "enqueuing notification" (GoErr.leaf o.enqueueErrMsg)))
          else
            ({ w1 with queue := w1.queue ++ [newRec.id] }, trace3,
             Except.ok { id := newRec.id, idempotencyKey := newRec.idempotencyKey,
                         channel := req.channel, status := NStatus.queued.str })

/-! ## Worker pipeline (`Worker.ProcessTask`, internal/domain/notification) -/

/-- Outcomes of the fallible calls a single `ProcessTask` execution may
make.  `providerChannels` is the set of channels with a registered
provider (the worker's `providers` map keys).  Best-effort store updates
whose errors are only logged have their own success flags. -/
structure WorkerOracle where
  getFails : Bool
  getErr : GoErr
  updProcessingOk : Bool
  updFailedOk : Bool
  updSentOk : Bool
  providerChannels : List String
  renderOutcome : Except GoErr (String × String × String)
  sendOutcome : Except String String
  deriving Repr

/-- Record with the given id (`GetByID`). -/
def findRec (records : List NotificationLog) (id : Nat) : Option NotificationLog :=
  records.find? (fun r => r.id = id)

/-- `Worker.ProcessTask` (internal/domain/notification): load the record
(missing record → plain error), best-effort transition to `processing`,
revalidate the type and resolve the provider (failures → `failed` +
`ValidationError`), render (failure → `failed` + wrapped error), send
(failure → `failed` + `ProviderError`), on success best-effort update to
`sent` with the provider id and return nil. -/
def processTask (o : WorkerOracle) (now : Int) (records : List NotificationLog) (logID : Nat) :
    List NotificationLog × Except GoErr Unit :=
  if o.getFails then
    (records, Except.error (GoErr.wrap ("fetching notification log " ++ toString logID) o.getErr))
  else
    match findRec records logID with
    | none =>
      (records, Except.error (GoErr.leaf ("notification log not found: " ++ toString logID)))
    | some nl =>
      let recs1 :=
        if o.updProcessingOk then updateStatusInStore now NStatus.processing "" "" logID records
        else records
      if IsValidType nl.ntype = false then
        let errMsg := "unsupported notification type: " ++ nl.ntype
        let recs2 :=
          if o.updFailedOk then updateStatusInStore now NStatus.failed "" errMsg logID recs1
          else recs1
        (recs2, Except.error (GoErr.validation errMsg))
      else if o.providerChannels.contains nl.channel = false then
        let errMsg := "unsupported channel: " ++ nl.channel
        let recs2 :=
          if o.updFailedOk then updateStatusInStore now NStatus.failed "" errMsg logID recs1
          else recs1
        (recs2, Except.error (GoErr.validation errMsg))
      else
        match o.renderOutcome with
        | Except.error re =>
          let errMsg := "rendering template: " ++ re.msg
          let recs2 :=
            if o.updFailedOk then updateStatusInStore now NStatus.failed "" errMsg logID recs1
            else recs1
          (recs2, Except.error (GoErr.wrap ("rendering template " ++ nl.ntype) re))
        | Except.ok _ =>
          match o.sendOutcome with
          | Except.error sendErrMsg =>
            let errMsg := "provider error: " ++ sendErrMsg
            let recs2 :=
              if o.updFailedOk then updateStatusInStore now NStatus.failed "" errMsg logID recs1
              else recs1
            (recs2, Except.error (GoErr.provider nl.channel sendErrMsg))
          | Except.ok providerID =>
            let recs2 :=
              if o.updSentOk then updateStatusInStore now NStatus.sent providerID "" logID recs1
              else recs1
            (recs2, Except.ok ())

/-! ## Reaper (`Reaper.sweep`, internal/domain/notification) -/

/-- World visible to the reaper: the durable table and the queue. -/
structure ReaperWorld where
  records : List NotificationLog
  queue : List Nat
  deriving DecidableEq, Repr

/-- Per-record outcomes of the reaper's two fallible calls. -/
structure ReaperOracle where
  updOk : Nat → Bool
  enqOk : Nat → Bool

/-- A record is stale when its status is `queued` or `processing` and
`updated_at` is older than the threshold (`ListStale` query predicate). -/
def isStale (olderThan : Int) (r : NotificationLog) : Bool :=
  (r.status = NStatus.queued ∨ r.status = NStatus.processing) ∧ r.updatedAt < olderThan

/-- `SupabaseStore.ListStale`: records stuck in `queued`/`processing`
with `updated_at < olderThan`, at most `limit` of them (the store orders
by `updated_at` ascending; the batch is modelled in table order, which
is immaterial to the per-record claims). -/
def listStale (records : List NotificationLog) (olderThan : Int) (limit : Nat) :
    List NotificationLog :=
  (records.filter (isStale olderThan)).take limit

/-- Body of the reaper loop for one stale record: reset the status to
`queued` via `UpdateStatus(id, queued, "", "")`; on success re-enqueue
the task by id; on either failure log and continue. -/
def reapOne (o : ReaperOracle) (now : Int) (w : ReaperWorld) (nl : NotificationLog) :
    ReaperWorld :=
  if o.updOk nl.id then
    let w1 : ReaperWorld :=
      { w with records := updateStatusInStore now NStatus.queued "" "" nl.id w.records }
    if o.enqOk nl.id then { w1 with queue := w1.queue ++ [nl.id] } else w1
  else w

/-- `Reaper.sweep`: one reaper cycle over the batch of stale records. -/
def sweep (o : ReaperOracle) (now staleThreshold : Int) (batch : Nat) (w : ReaperWorld) :
    ReaperWorld :=
  (listStale w.records (now - staleThreshold) batch).foldl (reapOne o now) w

/-! ## Recipient rate limiter (`RedisRecipientLimiter.Allow`)

One recipient's bucket is the Redis sorted set under
`notifly:ratelimit:<recipient>`; members are unique (timestamp plus
random nonce), so the bucket is faithfully a list of admission
timestamps (scores, nanoseconds).  A healthy store: every pipeline
succeeds.  `ZRemRangeByScore(-inf, now-W)` removes scores `≤ now - W`,
keeping exactly the entries strictly inside the window. -/

/-- One `Allow` call on a single recipient's bucket at time `now`:
expire entries with score `≤ now - W`, deny (without recording) when the
remaining count is at least `maxN`, otherwise record `now` and admit. -/
def allowStep (maxN : Nat) (W : Int) (b : List Int) (now : Int) : Bool × List Int :=
  let kept := b.filter (fun t => now - W < t)
  if maxN ≤ kept.length then (false, kept)
  else (true, now :: kept)

/-- A sequence of `Allow` calls on one bucket, in order; returns the
final bucket and the list of admitted call times. -/
def runLimiter (maxN : Nat) (W : Int) : List Int → List Int → List Int × List Int
  | b, [] => (b, [])
  | b, n :: rest =>
    let s := allowStep maxN W b n
    let r := runLimiter maxN W s.2 rest
    (r.1, if s.1 then n :: r.2 else r.2)

/-- Admission timestamps lying within the rolling window `(t, t + W]`. -/
def inWindow (t W x : Int) : Bool :=
  decide (t < x ∧ x ≤ t + W)

/-! ## Concrete fixtures used by witnesses -/

/-- A fully healthy intake oracle: every collaborator call succeeds and
the limiter admits. -/
def healthyIntakeOracle : IntakeOracle :=
  { lookupFails := false, limiterOutcome := Except.ok true, createFails := false,
    enqueueFails := false, enqueueErrMsg := "", failedUpdateOk := true }

/-- The empty intake world. -/
def emptyIntakeWorld : IntakeWorld :=
  { records := [], nextId := 0, queue := [] }

/-- A concrete valid send request with idempotency key "k1". -/
def sampleSendRequest : SendRequest :=
  { channel := "email", ntype := "magic_link", toAddr := "a@b.com",
    templateData := [], idempotencyKey := "k1" }

/-! ## Error handler: provider errors are masked (C7) -/

/-- The four `common` error types are leaves of the (linear) unwrap
chain, so a chain containing a `ProviderError` contains no
`NotFoundError`, `ValidationError` or `UnauthorizedError`. -/
theorem hasProvider_excludes_others {e : GoErr} (h : e.hasProvider = true) :
    e.asNotFound = none ∧ e.asValidation = none ∧ e.asUnauthorized = none := by
  induction e with
  | wrap m inner ih =>
    have hi : inner.hasProvider = true := h
    obtain ⟨h1, h2, h3⟩ := ih hi
    exact ⟨h1, h2, h3⟩
  | provider p m => exact ⟨rfl, rfl, rfl⟩
  | validation m => cases h
  | notFound r i => cases h
  | unauthorized m => cases h
  | leaf m => cases h
  | skipRetry => cases h

/-- C7: whenever the HTTP error handler is given an error whose chain
contains a `ProviderError`, regardless of wrapping, it responds with
status 502 and the fixed message "notification delivery failed"; the
provider error detail is never part of the client response. -/
theorem handleError_masks_provider (e : GoErr) (h : e.hasProvider = true) :
    HandleError e = (502, "notification delivery failed") := by
  obtain ⟨h1, h2, h3⟩ := hasProvider_excludes_others h
  simp [HandleError, h1, h2, h3, h]

/-- C7 witness: a wrapped provider error at a concrete input. -/
theorem handleError_masks_provider_witness :
    HandleError (GoErr.wrap "processing task" (GoErr.provider "email" "SMTP 550 rejected")) =
      (502, "notification delivery failed") :=
  handleError_masks_provider
    (GoErr.wrap "processing task" (GoErr.provider "email" "SMTP 550 rejected")) (by decide)

/-! ## Retry-delay function (C8) -/

/-- C8 (amended): the queue server's default retry-delay function
returns exactly `30 * 2 ^ (n - 1)` seconds for the n-th retry for every
`1 ≤ n ≤ 29` (30 s, 60 s, 120 s, 240 s, 480 s, …); beyond that the
int64 nanosecond computation overflows. -/
theorem retryDelay_exponential (n : Nat) (h1 : 1 ≤ n) (h2 : n ≤ 29) :
    retryDelayNanos n = 30 * 2 ^ (n - 1) * 1000000000 := by
  interval_cases n <;> decide

/-- C8 witness: the 5th retry is delayed 480 s. -/
theorem retryDelay_exponential_witness :
    retryDelayNanos 5 = 30 * 2 ^ (5 - 1) * 1000000000 :=
  retryDelay_exponential 5 (by decide) (by decide)

/-- C8 counterexample: at n = 30 the computation
`time.Duration(30*(1<<uint(n-1))) * time.Second` overflows int64 and the
result (a negative duration) is not `30 * 2 ^ (n - 1)` seconds, so the
claim's "for every n ≥ 1" fails. -/
theorem retryDelay_overflows_at_30 :
    retryDelayNanos 30 ≠ 30 * 2 ^ (30 - 1) * 1000000000 := by decide

/-! ## `UpdateStatus` omits empty columns (C9) -/

/-- C9: a call of `SupabaseStore.UpdateStatus` with an empty
`providerID` (resp. `errMsg`) omits the `provider_id` (resp.
`error_message`) column from the update, keeping its previous value; in
particular a record moved to `sent` after an earlier failed attempt
retains the old `error_message`, and a record reset by the reaper
(status `queued`, both arguments empty) retains both its old
`error_message` and its old `provider_id`. -/
theorem updateStatus_omits_empty_columns (now : Int) (status : NStatus)
    (providerID errMsg : String) (r : NotificationLog) :
    (updateStatusRow now status "" errMsg r).providerID = r.providerID ∧
    (updateStatusRow now status providerID "" r).errorMessage = r.errorMessage ∧
    (updateStatusRow now NStatus.sent providerID "" r).errorMessage = r.errorMessage ∧
    (updateStatusRow now NStatus.queued "" "" r).errorMessage = r.errorMessage ∧
    (updateStatusRow now NStatus.queued "" "" r).providerID = r.providerID := by
  simp [updateStatusRow]

/-! ## Intake: idempotency hit has no further side effects (C2) -/

/-- C2: when the request carries a non-empty idempotency key and the
store lookup returns an existing record, `Service.Enqueue` returns a
response mirroring the existing record (`id`, current `status`,
`channel`, `idempotency_key`), the world is unchanged, and the trace
consists of the lookup alone: the rate limiter is not invoked, no
record is created, and nothing is enqueued. -/
theorem enqueue_idempotent_hit (o : IntakeOracle) (now : Int) (w : IntakeWorld)
    (req : SendRequest) (found : NotificationLog)
    (hvalid : IsValidType req.ntype = true)
    (hkey : req.idempotencyKey ≠ "")
    (hlookup : o.lookupFails = false)
    (hfound : findByKey w req.idempotencyKey = some found) :
    serviceEnqueue o now w req =
      (w, [Effect.lookup req.idempotencyKey],
       Except.ok { id := found.id, idempotencyKey := found.idempotencyKey,
                   channel := found.channel, status := found.status.str }) := by
  simp [serviceEnqueue, hvalid, hkey, hlookup, hfound]

/-- C2 witness: concrete idempotency hit. -/
theorem enqueue_idempotent_hit_witness :
    serviceEnqueue
      { lookupFails := false, limiterOutcome := Except.ok true, createFails := false,
        enqueueFails := false, enqueueErrMsg := "", failedUpdateOk := true }
      100
      { records := [{ id := 4, idempotencyKey := "k1", channel := "email",
                      ntype := "magic_link", recipient := "a@b.com", templateData := [],
                      providerID := "p-9", status := NStatus.sent, errorMessage := "",
                      createdAt := 1, updatedAt := 2, sentAt := some 2,
                      deliveredAt := none, openedAt := none, bouncedAt := none }],
        nextId := 5, queue := [] }
      { channel := "sms", ntype := "magic_link", toAddr := "a@b.com",
        templateData := [], idempotencyKey := "k1" } =
      ({ records := [{ id := 4, idempotencyKey := "k1", channel := "email",
                       ntype := "magic_link", recipient := "a@b.com", templateData := [],
                       providerID := "p-9", status := NStatus.sent, errorMessage := "",
                       createdAt := 1, updatedAt := 2, sentAt := some 2,
                       deliveredAt := none, openedAt := none, bouncedAt := none }],
         nextId := 5, queue := [] },
       [Effect.lookup "k1"],
       Except.ok { id := 4, idempotencyKey := "k1", channel := "email", status := "sent" }) :=
  enqueue_idempotent_hit _ _ _ _
    { id := 4, idempotencyKey := "k1", channel := "email",
      ntype := "magic_link", recipient := "a@b.com", templateData := [],
      providerID := "p-9", status := NStatus.sent, errorMessage := "",
      createdAt := 1, updatedAt := 2, sentAt := some 2,
      deliveredAt := none, openedAt := none, bouncedAt := none }
    (by decide) (by decide) rfl rfl

/-! ## Intake: limiter errors fail open (C3) -/

/-- C3: if the recipient rate limiter's `Allow` returns an error, the
intake behaves exactly as if the limiter had allowed the request: it
proceeds to create the record and enqueue the task, so a limiter error
by itself never causes `Service.Enqueue` to return an error. -/
theorem enqueue_limiter_fail_open (o : IntakeOracle) (now : Int) (w : IntakeWorld)
    (req : SendRequest) (e : String) :
    serviceEnqueue { o with limiterOutcome := Except.error e } now w req =
      serviceEnqueue { o with limiterOutcome := Except.ok true } now w req := rfl

/-! ## Worker: missing record (C6) -/

/-- C6 (amended): when the store has no record for the task id (and the
lookup itself does not fail), `Worker.ProcessTask` returns a non-nil
error — a plain formatted error that does not carry the asynq
skip-retry marker — and leaves the store untouched.  The queue
therefore retries the task up to `max_retry` instead of discarding it. -/
theorem processTask_missing_record (o : WorkerOracle) (now : Int)
    (records : List NotificationLog) (logID : Nat)
    (hget : o.getFails = false)
    (hmiss : findRec records logID = none) :
    processTask o now records logID =
      (records, Except.error (GoErr.leaf ("notification log not found: " ++ toString logID))) ∧
    (GoErr.leaf ("notification log not found: " ++ toString logID)).hasSkipRetry = false := by
  refine ⟨?_, rfl⟩
  simp [processTask, hget, hmiss]

/-- C6 witness: concrete missing id on an empty store. -/
theorem processTask_missing_record_witness :
    processTask
      { getFails := false, getErr := GoErr.leaf "", updProcessingOk := true,
        updFailedOk := true, updSentOk := true, providerChannels := ["email"],
        renderOutcome := Except.ok ("s", "h", "t"), sendOutcome := Except.ok "pid-1" }
      0 [] 7 =
      ([], Except.error (GoErr.leaf "notification log not found: 7")) ∧
    (GoErr.leaf "notification log not found: 7").hasSkipRetry = false :=
  processTask_missing_record _ 0 [] 7 rfl rfl

/-- C6 counterexample: at the concrete input (empty store, task id 7)
`ProcessTask` returns the plain error "notification log not found: 7",
which does not carry the skip-retry marker — `errors.Is(err,
asynq.SkipRetry)` is false — so the queue's policy retries the task
rather than discarding it, contradicting the claim that the error is
non-retryable. -/
theorem processTask_missing_record_is_retryable :
    (processTask
      { getFails := false, getErr := GoErr.leaf "", updProcessingOk := true,
        updFailedOk := true, updSentOk := true, providerChannels := ["email"],
        renderOutcome := Except.ok ("s", "h", "t"), sendOutcome := Except.ok "pid-1" }
      0 [] 7).2 = Except.error (GoErr.leaf "notification log not found: 7") ∧
    (GoErr.leaf "notification log not found: 7").hasSkipRetry = false :=
  ⟨rfl, rfl⟩

/-! ## Worker: success is final even if the sent-update fails (C10) -/

/-- C10: once the channel provider's `Send` succeeds,
`Worker.ProcessTask` returns nil (task success) even when the
subsequent store update to `sent` with the provider id fails; the
failed update is only logged, and the store is left exactly as it was
before that update (the record keeps its previous status). -/
theorem processTask_sent_update_fail_still_ok (o : WorkerOracle) (now : Int)
    (records : List NotificationLog) (logID : Nat) (nl : NotificationLog)
    (rendered : String × String × String) (pid : String)
    (hget : o.getFails = false)
    (hfind : findRec records logID = some nl)
    (hvalid : IsValidType nl.ntype = true)
    (hchan : o.providerChannels.contains nl.channel = true)
    (hrender : o.renderOutcome = Except.ok rendered)
    (hsend : o.sendOutcome = Except.ok pid)
    (hupd : o.updSentOk = false) :
    processTask o now records logID =
      ((if o.updProcessingOk then updateStatusInStore now NStatus.processing "" "" logID records
        else records),
       Except.ok ()) := by
  have hmem : nl.channel ∈ o.providerChannels := by simpa using hchan
  simp [processTask, hget, hfind, hvalid, hmem, hrender, hsend, hupd]

/-- C10 witness: concrete run in which the provider send succeeds and
the final store update fails; the task still succeeds and the record is
left in `processing`. -/
theorem processTask_sent_update_fail_still_ok_witness :
    processTask
      { getFails := false, getErr := GoErr.leaf "", updProcessingOk := true,
        updFailedOk := true, updSentOk := false, providerChannels := ["email"],
        renderOutcome := Except.ok ("s", "h", "t"), sendOutcome := Except.ok "pid-1" }
      50
      [{ id := 1, idempotencyKey := "", channel := "email", ntype := "magic_link",
         recipient := "a@b.com", templateData := [], providerID := "",
         status := NStatus.queued, errorMessage := "", createdAt := 0, updatedAt := 0,
         sentAt := none, deliveredAt := none, openedAt := none, bouncedAt := none }]
      1 =
      (updateStatusInStore 50 NStatus.processing "" "" 1
        [{ id := 1, idempotencyKey := "", channel := "email", ntype := "magic_link",
           recipient := "a@b.com", templateData := [], providerID := "",
           status := NStatus.queued, errorMessage := "", createdAt := 0, updatedAt := 0,
           sentAt := none, deliveredAt := none, openedAt := none, bouncedAt := none }],
       Except.ok ()) :=
  processTask_sent_update_fail_still_ok _ 50 _ 1 _ ("s", "h", "t") "pid-1"
    rfl rfl (by decide) (by decide) rfl rfl rfl

/-! ## Reaper recovery (C5) -/

/-- C5 counterexample: a stale `processing` record carrying
`error_message = "smtp timeout"` is recovered by the sweep (status
reset to `queued`, `updated_at` refreshed, task re-enqueued), but its
`error_message` is NOT cleared: `UpdateStatus(id, queued, "", "")`
omits the empty `error_message` argument from the update, so the old
value survives, contradicting the claim that the reaper clears the
transient error fields. -/
theorem reaper_leaves_error_message :
    (sweep { updOk := fun _ => true, enqOk := fun _ => true } 1000 600 50
      { records := [{ id := 1, idempotencyKey := "", channel := "email",
                      ntype := "magic_link", recipient := "a@b.com", templateData := [],
                      providerID := "", status := NStatus.processing,
                      errorMessage := "smtp timeout", createdAt := 0, updatedAt := 0,
                      sentAt := none, deliveredAt := none, openedAt := none,
                      bouncedAt := none }],
        queue := [] }).records.map (fun r => (r.status, r.updatedAt, r.errorMessage)) =
      [(NStatus.queued, 1000, "smtp timeout")] ∧ "smtp timeout" ≠ "" :=
  ⟨rfl, by decide⟩

/-- C5 (amended): for each stale record it recovers, the reaper sets
`status = queued`, updates `updated_at`, and then re-enqueues the task
by its record id; the transient error fields are left unchanged
(`error_message` and `provider_id` keep their previous values, because
the reset passes them as empty strings and `UpdateStatus` omits empty
columns). -/
theorem reaper_recovers_stale_record (o : ReaperOracle) (now staleThreshold : Int)
    (batch : Nat) (r : NotificationLog) (q : List Nat)
    (hstale : isStale (now - staleThreshold) r = true)
    (hbatch : 1 ≤ batch)
    (hupd : o.updOk r.id = true) (henq : o.enqOk r.id = true) :
    sweep o now staleThreshold batch { records := [r], queue := q } =
      { records := [{ r with status := NStatus.queued, updatedAt := now }],
        queue := q ++ [r.id] } := by
  obtain ⟨b, rfl⟩ : ∃ b, batch = b + 1 := ⟨batch - 1, (Nat.succ_pred_eq_of_pos hbatch).symm⟩
  simp [sweep, listStale, hstale, reapOne, hupd, henq, updateStatusInStore, updateStatusRow]

/-- C5 witness: the concrete stale record from the counterexample is
recovered with its status reset, its timestamp refreshed, its id
re-enqueued, and its error message retained. -/
theorem reaper_recovers_stale_record_witness :
    sweep { updOk := fun _ => true, enqOk := fun _ => true } 1000 600 50
      { records := [{ id := 1, idempotencyKey := "", channel := "email",
                      ntype := "magic_link", recipient := "a@b.com", templateData := [],
                      providerID := "", status := NStatus.processing,
                      errorMessage := "smtp timeout", createdAt := 0, updatedAt := 0,
                      sentAt := none, deliveredAt := none, openedAt := none,
                      bouncedAt := none }],
        queue := [] } =
      { records := [{ id := 1, idempotencyKey := "", channel := "email",
                      ntype := "magic_link", recipient := "a@b.com", templateData := [],
                      providerID := "", status := NStatus.queued,
                      errorMessage := "smtp timeout", createdAt := 0, updatedAt := 1000,
                      sentAt := none, deliveredAt := none, openedAt := none,
                      bouncedAt := none }],
        queue := [1] } :=
  reaper_recovers_stale_record _ 1000 600 50 _ [] (by decide) (by decide) rfl rfl

/-! ## Intake idempotency (C1) -/

/-- A world with no record under key `k` has key-count zero. -/
theorem countKey_eq_zero_of_findByKey_none {w : IntakeWorld} {k : String}
    (h : findByKey w k = none) : countKey w k = 0 := by
  rw [countKey, List.countP_eq_zero]
  exact List.find?_eq_none.mp h

/-- Exhaustive description of the successful runs of `Service.Enqueue`
for a request with non-empty idempotency key `k`: either the lookup hit
an existing record (response mirrors it, world unchanged), or no record
with key `k` existed and exactly one new record with key `k` and the
fresh id was appended. -/
theorem enqueue_ok_cases (o : IntakeOracle) (t : Int) (w : IntakeWorld) (req : SendRequest)
    (resp : SendResponse) (k : String) (hk : k ≠ "") (hkey : req.idempotencyKey = k)
    (hr : (serviceEnqueue o t w req).2.2 = Except.ok resp) :
    (∃ found, findByKey w k = some found ∧ resp.id = found.id ∧
       (serviceEnqueue o t w req).1 = w) ∨
    (findByKey w k = none ∧ resp.id = w.nextId ∧
       ∃ nr : NotificationLog, nr.id = w.nextId ∧ nr.idempotencyKey = k ∧
         (serviceEnqueue o t w req).1.records = w.records ++ [nr]) := by
  cases hv : IsValidType req.ntype with
  | false => simp [serviceEnqueue, hv] at hr
  | true =>
    cases hf : findByKey w k with
    | some found =>
      cases hl : o.lookupFails with
      | false =>
        refine Or.inl ⟨found, rfl, ?_, ?_⟩
        · simp [serviceEnqueue, hv, hkey, hk, hl, hf] at hr
          rw [← hr]
        · simp [serviceEnqueue, hv, hkey, hk, hl, hf]
      | true =>
        cases hlim : o.limiterOutcome with
        | ok b =>
          cases b with
          | false => simp [serviceEnqueue, hv, hkey, hk, hl, hf, hlim] at hr
          | true => simp [serviceEnqueue, hv, hkey, hk, hl, hf, hlim] at hr
        | error s => simp [serviceEnqueue, hv, hkey, hk, hl, hf, hlim] at hr
    | none =>
      have hproceed :
          (serviceEnqueue o t w req).2.2 = Except.ok resp →
          o.limiterOutcome ≠ Except.ok false →
          o.createFails = false → o.enqueueFails = false →
          resp.id = w.nextId ∧
          (serviceEnqueue o t w req).1.records = w.records ++
            [{ id := w.nextId, idempotencyKey := k, channel := req.channel,
               ntype := req.ntype, recipient := req.toAddr,
               templateData := req.templateData, providerID := "",
               status := NStatus.queued, errorMessage := "", createdAt := t,
               updatedAt := t, sentAt := none, deliveredAt := none,
               openedAt := none, bouncedAt := none }] := by
        intro hr2 hlim hc he
        cases hlo : o.limiterOutcome with
        | ok b =>
          cases b with
          | false => exact absurd hlo hlim
          | true =>
            constructor
            · simp [serviceEnqueue, hv, hkey, hk, hf, hlo, hc, he] at hr2
              rw [← hr2]
            · simp [serviceEnqueue, hv, hkey, hk, hf, hlo, hc, he]
        | error s =>
          constructor
          · simp [serviceEnqueue, hv, hkey, hk, hf, hlo, hc, he] at hr2
            rw [← hr2]
          · simp [serviceEnqueue, hv, hkey, hk, hf, hlo, hc, he]
      have hlim : o.limiterOutcome ≠ Except.ok false := by
        intro hlo
        simp [serviceEnqueue, hv, hkey, hk, hf, hlo] at hr
      have hc : o.createFails = false := by
        cases hc0 : o.createFails with
        | false => rfl
        | true =>
          cases hlo : o.limiterOutcome with
          | ok b =>
            cases b with
            | false => exact absurd hlo hlim
            | true => simp [serviceEnqueue, hv, hkey, hk, hf, hlo, hc0] at hr
          | error s => simp [serviceEnqueue, hv, hkey, hk, hf, hlo, hc0] at hr
      have he : o.enqueueFails = false := by
        cases he0 : o.enqueueFails with
        | false => rfl
        | true =>
          cases hlo : o.limiterOutcome with
          | ok b =>
            cases b with
            | false => exact absurd hlo hlim
            | true => simp [serviceEnqueue, hv, hkey, hk, hf, hlo, hc, he0] at hr
          | error s => simp [serviceEnqueue, hv, hkey, hk, hf, hlo, hc, he0] at hr
      obtain ⟨hid, hrecs⟩ := hproceed hr hlim hc he
      exact Or.inr ⟨rfl, hid, _, rfl, rfl, hrecs⟩

/-- C1: for two sequential calls of `Service.Enqueue` whose requests
share the same non-empty idempotency key `k`, if both calls return a
response, the two responses carry the same record id and the store ends
up with at most one record under key `k` — the store's uniqueness
constraint on `idempotency_key` is part of the model of `Create`. -/
theorem enqueue_idempotency (o1 o2 : IntakeOracle) (t1 t2 : Int) (w : IntakeWorld)
    (req1 req2 : SendRequest) (k : String) (resp1 resp2 : SendResponse)
    (hk : k ≠ "")
    (hkey1 : req1.idempotencyKey = k) (hkey2 : req2.idempotencyKey = k)
    (huniq : countKey w k ≤ 1)
    (hr1 : (serviceEnqueue o1 t1 w req1).2.2 = Except.ok resp1)
    (hr2 : (serviceEnqueue o2 t2 (serviceEnqueue o1 t1 w req1).1 req2).2.2 =
      Except.ok resp2) :
    resp1.id = resp2.id ∧
    countKey (serviceEnqueue o2 t2 (serviceEnqueue o1 t1 w req1).1 req2).1 k ≤ 1 := by
  rcases enqueue_ok_cases o1 t1 w req1 resp1 k hk hkey1 hr1 with
    ⟨found, hfind1, hid1, hweq1⟩ | ⟨hnone1, hid1, nr, hnrid, hnrkey, hrecs1⟩
  · rcases enqueue_ok_cases o2 t2 _ req2 resp2 k hk hkey2 hr2 with
      ⟨found2, hfind2, hid2, hweq2⟩ | ⟨hnone2, _, _, _, _, _⟩
    · rw [hweq1, hfind1] at hfind2
      injection hfind2 with hf2
      refine ⟨?_, ?_⟩
      · rw [hid1, hid2, hf2]
      · rw [hweq2, hweq1]; exact huniq
    · rw [hweq1, hfind1] at hnone2; cases hnone2
  · have hfind1 : findByKey (serviceEnqueue o1 t1 w req1).1 k = some nr := by
      show (serviceEnqueue o1 t1 w req1).1.records.find?
        (fun r => r.idempotencyKey = k) = some nr
      rw [hrecs1, List.find?_append]
      have h0 : w.records.find? (fun r => r.idempotencyKey = k) = none := hnone1
      simp [h0, hnrkey]
    have hcount1 : countKey (serviceEnqueue o1 t1 w req1).1 k = 1 := by
      show (serviceEnqueue o1 t1 w req1).1.records.countP
        (fun r => r.idempotencyKey = k) = 1
      rw [hrecs1, List.countP_append]
      have h0 : w.records.countP (fun r => r.idempotencyKey = k) = 0 :=
        countKey_eq_zero_of_findByKey_none hnone1
      simp [h0, hnrkey]
    rcases enqueue_ok_cases o2 t2 _ req2 resp2 k hk hkey2 hr2 with
      ⟨found2, hfind2, hid2, hweq2⟩ | ⟨hnone2, _, _, _, _, _⟩
    · rw [hfind1] at hfind2
      injection hfind2 with hf2
      refine ⟨?_, ?_⟩
      · rw [hid1, hid2, ← hf2, hnrid]
      · rw [hweq2, hcount1]
    · rw [hfind1] at hnone2; cases hnone2

/-- C1 witness: two concrete sequential calls sharing key "k1" on an
initially empty store. -/
theorem enqueue_idempotency_witness :
    ({ id := 0, idempotencyKey := "k1", channel := "email",
       status := "queued" } : SendResponse).id =
      ({ id := 0, idempotencyKey := "k1", channel := "email",
         status := "queued" } : SendResponse).id ∧
    countKey (serviceEnqueue healthyIntakeOracle 200
      (serviceEnqueue healthyIntakeOracle 100 emptyIntakeWorld sampleSendRequest).1
      sampleSendRequest).1 "k1" ≤ 1 :=
  enqueue_idempotency healthyIntakeOracle healthyIntakeOracle 100 200 emptyIntakeWorld
    sampleSendRequest sampleSendRequest "k1"
    { id := 0, idempotencyKey := "k1", channel := "email", status := "queued" }
    { id := 0, idempotencyKey := "k1", channel := "email", status := "queued" }
    (by decide) rfl rfl (by decide) rfl rfl

/-! ## Rate limiter: sliding-window bound (C4) -/

/-- Every admitted timestamp is one of the call times. -/
theorem mem_runLimiter_admitted {maxN : Nat} {W : Int} :
    ∀ {ts b : List Int} {x : Int}, x ∈ (runLimiter maxN W b ts).2 → x ∈ ts := by
  intro ts
  induction ts with
  | nil => intro b x h; simp [runLimiter] at h
  | cons n rest ih =>
    intro b x h
    simp only [runLimiter] at h
    by_cases hs : (allowStep maxN W b n).1
    · rw [if_pos hs] at h
      rcases List.mem_cons.mp h with rfl | h2
      · exact List.mem_cons_self _ _
      · exact List.mem_cons_of_mem _ (ih h2)
    · rw [if_neg hs] at h
      exact List.mem_cons_of_mem _ (ih h)

/-- Filtering by a predicate implied by `p` does not change the
`p`-count. -/
theorem countP_filter_of_imp {l : List Int} {p q : Int → Bool}
    (h : ∀ x, p x = true → q x = true) :
    (l.filter q).countP p = l.countP p := by
  induction l with
  | nil => rfl
  | cons a l ih =>
    cases hq : q a with
    | true => simp [List.filter_cons, hq, List.countP_cons, ih]
    | false =>
      have hp : p a = false := by
        cases hp0 : p a with
        | false => rfl
        | true => rw [h a hp0] at hq; cases hq
      simp [List.filter_cons, hq, List.countP_cons, ih, hp]

/-- Core invariant of the sliding-window limiter: running any monotone
sequence of `Allow` calls starting from a bucket whose entries all
precede the calls and whose in-window count is within the limit, the
admitted-in-window count plus the starting in-window count never
exceeds `maxN`. -/
theorem runLimiter_window_bound (maxN : Nat) (W t : Int) :
    ∀ (ts b : List Int), ts.Pairwise (· ≤ ·) →
      (∀ x ∈ b, ∀ m ∈ ts, x ≤ m) →
      b.countP (inWindow t W) ≤ maxN →
      (runLimiter maxN W b ts).2.countP (inWindow t W) + b.countP (inWindow t W) ≤ maxN := by
  intro ts
  induction ts with
  | nil =>
    intro b _ _ hb
    simpa [runLimiter] using hb
  | cons n rest ih =>
    intro b hpair hdom hb
    have hhead : ∀ m ∈ rest, n ≤ m := (List.pairwise_cons.mp hpair).1
    have hpair2 : rest.Pairwise (· ≤ ·) := (List.pairwise_cons.mp hpair).2
    by_cases hn : t + W < n
    · -- the head call (and all later ones) lie beyond the window
      have hzero : (runLimiter maxN W b (n :: rest)).2.countP (inWindow t W) = 0 := by
        rw [List.countP_eq_zero]
        intro x hx
        have hmem : x ∈ n :: rest := mem_runLimiter_admitted hx
        have hxge : n ≤ x := by
          rcases List.mem_cons.mp hmem with rfl | hxm
          · exact le_refl x
          · exact hhead x hxm
        simp only [inWindow, decide_eq_true_eq]
        omega
      omega
    · push_neg at hn
      have hkeep : (b.filter (fun x => n - W < x)).countP (inWindow t W)
          = b.countP (inWindow t W) := by
        apply countP_filter_of_imp
        intro x hx
        simp only [inWindow, decide_eq_true_eq] at hx
        simp only [decide_eq_true_eq]
        omega
      have hdom2 : ∀ x ∈ b.filter (fun x => n - W < x), ∀ m ∈ rest, x ≤ m :=
        fun x hx m hm => hdom x (List.mem_of_mem_filter hx) m (List.mem_cons_of_mem _ hm)
      by_cases hg : maxN ≤ (b.filter (fun x => n - W < x)).length
      · -- denial: the bucket is filtered, nothing is recorded
        have hstep : allowStep maxN W b n = (false, b.filter (fun x => n - W < x)) := by
          simp [allowStep, hg]
        have := ih (b.filter (fun x => n - W < x)) hpair2 hdom2
          (by rw [hkeep]; exact hb)
        rw [hkeep] at this
        simp [runLimiter, hstep]
        omega
      · -- admission: `n` is recorded into the filtered bucket
        have hlt : (b.filter (fun x => n - W < x)).length < maxN := Nat.lt_of_not_le hg
        have hstep : allowStep maxN W b n = (true, n :: b.filter (fun x => n - W < x)) := by
          simp [allowStep, hg]
        have hdom3 : ∀ x ∈ n :: b.filter (fun x => n - W < x), ∀ m ∈ rest, x ≤ m := by
          intro x hx m hm
          rcases List.mem_cons.mp hx with rfl | hx2
          · exact hhead m hm
          · exact hdom2 x hx2 m hm
        have hcle : (b.filter (fun x => n - W < x)).countP (inWindow t W)
            ≤ (b.filter (fun x => n - W < x)).length := List.countP_le_length _
        have hb3 : (n :: b.filter (fun x => n - W < x)).countP (inWindow t W) ≤ maxN := by
          rw [List.countP_cons]
          have hble : (b.filter (fun x => n - W < x)).countP (inWindow t W) ≤ maxN := by
            rw [hkeep]; exact hb
          split
          · omega
          · omega
        have := ih (n :: b.filter (fun x => n - W < x)) hpair2 hdom3 hb3
        rw [List.countP_cons, hkeep] at this
        simp [runLimiter, hstep]
        rw [List.countP_cons]
        omega

/-- C4: in a sequential execution with a healthy limiter store and
non-decreasing call times, (a) for every rolling window `(t, t + W]` at
most `maxN` ( = `max_per_window`) calls of `Allow` on one recipient's
bucket return `(true, nil)` with their admission time inside the
window, and (b) when the count of unexpired entries is already at least
`maxN`, `Allow` returns `(false, nil)` without recording the
admission. -/
theorem limiter_sliding_window (maxN : Nat) (W t : Int) (ts : List Int)
    (hmono : ts.Pairwise (· ≤ ·)) :
    (runLimiter maxN W [] ts).2.countP (inWindow t W) ≤ maxN ∧
    (∀ (b : List Int) (now : Int),
       maxN ≤ (b.filter (fun x => now - W < x)).length →
       allowStep maxN W b now = (false, b.filter (fun x => now - W < x))) := by
  constructor
  · have h := runLimiter_window_bound maxN W t ts [] hmono (by simp) (by simp)
    simpa using h
  · intro b now hge
    simp [allowStep, hge]

/-- C4 witness: five calls on one bucket, limit 3 per hour
(`W = 3600` s): at most three are admitted in any window, and a full
bucket denies without recording. -/
theorem limiter_sliding_window_witness :
    (runLimiter 3 3600 [] [10, 20, 30, 40, 50]).2.countP (inWindow 0 3600) ≤ 3 ∧
    (∀ (b : List Int) (now : Int),
       3 ≤ (b.filter (fun x => now - 3600 < x)).length →
       allowStep 3 3600 b now = (false, b.filter (fun x => now - 3600 < x))) :=
  limiter_sliding_window 3 3600 0 [10, 20, 30, 40, 50] (by decide)

end Notifly
